import Mathlib

/-!
Verification development for the Intelligirls AI Career Compass chat
application.  The definitions below are a shallow embedding of the
program's source files:

* `geminiModuleInit`, `createChatSession` — the Gemini service module
  (reading `process.env.API_KEY`, throwing when it is falsy, creating a
  configured chat session);
* `formatText` — the `formatText` helper of the `ChatBubble` component
  (the global lazy regex replace of `**…**` by a strong element followed
  by the global replace of newlines by `<br />`);
* `Sender`, `Message` — the shared message model of `types.ts`;
* `AppState`, `initializeChat`, `handleSendMessage` — the `App`
  component's state (`chat`, `messages`, `userInput`, `isLoading`) and
  its two stateful operations.  Each operation is embedded as a function
  from the pre-state, the `Date.now()` timestamps it observes, and the
  outcome of the provider interaction (success with a fragment list,
  failure at initiation, or failure after consuming a prefix of the
  fragments) to the list of observable state updates (renders) it
  performs, in order; the final state is the last element of that trace.
  React batches the synchronous state updates between two suspension
  points into one render, which is how the traces are built.
-/

namespace CareerCompass

/-! ## Message model (types.ts) -/

inductive Sender where
  | USER
  | BOT
deriving DecidableEq, Repr

structure Message where
  id : String
  text : String
  sender : Sender
deriving DecidableEq, Repr

/-! ## Gemini service module (services/geminiService.ts) -/

/-- The client value produced by `new GoogleGenAI({ apiKey: API_KEY })`. -/
structure GoogleGenAI where
  apiKey : String
deriving DecidableEq, Repr

/-- A chat session as returned by `ai.chats.create` with the fixed model
identifier; the system instruction and temperature are fixed literals in
the source and play no role in the claims. -/
structure Chat where
  client : GoogleGenAI
  model : String
deriving DecidableEq, Repr

/-- JavaScript truthiness of `process.env.API_KEY`: `undefined` (here
`none`) and the empty string are falsy. -/
def apiKeyTruthy : Option String → Bool
  | none => false
  | some k => !k.isEmpty

/-- The module-level initialization of the service file: read
`process.env.API_KEY` and `throw new Error(...)` when it is falsy,
otherwise build the `GoogleGenAI` client.  Nothing else in the module can
run (in particular no session can be created) when this throws. -/
def geminiModuleInit : Option String → Except String GoogleGenAI
  | none => .error "API_KEY environment variable not set"
  | some k =>
    if k.isEmpty then .error "API_KEY environment variable not set"
    else .ok ⟨k⟩

/-- The function `createChatSession` requires the module-initialized
client and uses the fixed model identifier. -/
def createChatSession (ai : GoogleGenAI) : Chat :=
  ⟨ai, "gemini-2.5-flash"⟩

/-! ## Text formatting (components/ChatBubble.tsx)

`formatText` is
`text.replace(/\*\*(.*?)\*\*/g, '<strong class="font-semibold">$1</strong>').replace(/\n/g, '<br />')`
and its result is injected with `dangerouslySetInnerHTML`.  In the regex,
`.` does not match a JavaScript line terminator and the lazy group takes
the shortest match, so after an opening `**` the scan for the closing
`**` closes at the first later adjacent star pair and gives up at the
first line terminator or at the end of the input; on a failed match the
engine advances by one character. -/

def isLineTerminator (c : Char) : Bool :=
  c = '\n' || c = '\r' || c = '\u2028' || c = '\u2029'

/-- Scan for the closing `**` of a lazy `\*\*(.*?)\*\*` match: return the
shortest inner text and the remainder after the closing `**`, or `none`
when a line terminator or the end of the input intervenes. -/
def findCloseBold : List Char → Option (List Char × List Char)
  | [] => none
  | c :: rest =>
    if c = '*' ∧ rest.head? = some '*' then some ([], rest.tail)
    else if isLineTerminator c then none
    else (findCloseBold rest).map fun p => (c :: p.1, p.2)

def strongOpen : List Char := "<strong class=\"font-semibold\">".data

def strongClose : List Char := "</strong>".data

/-- One left-to-right pass of the global lazy bold replace.  The fuel
argument only forces structural recursion; every step consumes at least
one character (a successful match consumes at least four), so the
caller's fuel `cs.length` is never exhausted. -/
def boldAux : Nat → List Char → List Char
  | 0, cs => cs
  | _ + 1, [] => []
  | n + 1, c :: rest =>
    if c = '*' ∧ rest.head? = some '*' then
      match findCloseBold rest.tail with
      | some (inner, after) =>
        strongOpen ++ inner ++ strongClose ++ boldAux n after
      | none => c :: boldAux n rest
    else c :: boldAux n rest

/-- The global replace of `\*\*(.*?)\*\*` by the strong element. -/
def boldReplace (cs : List Char) : List Char :=
  boldAux cs.length cs

/-- The global replace of `\n` by `<br />`. -/
def brReplace : List Char → List Char
  | [] => []
  | c :: rest => (if c = '\n' then "<br />".data else [c]) ++ brReplace rest

/-- The function `formatText` of ChatBubble: the bold replace, then the newline
replace; the result is interpreted as HTML markup by the rendering
surface. -/
def formatText (s : String) : String :=
  ⟨brReplace (boldReplace s.data)⟩

/-! ## Conversation controller (the App component)

The component state is `chat` (here: whether a session handle has been
stored), `messages`, `userInput` and `isLoading`.  The provider
interaction of one operation is summarized by its outcome: the stream may
fail to start (`sendFail`, the `await …sendMessageStream` throws), fail
after yielding a prefix of the fragments (`streamErr`), or succeed with
the full fragment list (`ok`); for `initializeChat`, `createChatSession`
itself may also throw (`createFail`).  The `Date.now()` values the code
reads are passed in as explicit timestamps. -/

structure AppState where
  chat : Bool
  messages : List Message
  userInput : String
  isLoading : Bool
deriving DecidableEq, Repr

inductive InitOutcome where
  | createFail
  | sendFail
  | streamErr (consumed : List String)
  | ok (fragments : List String)
deriving DecidableEq, Repr

inductive SendOutcome where
  | sendFail
  | streamErr (consumed : List String)
  | ok (fragments : List String)
deriving DecidableEq, Repr

/-- JavaScript truthiness of `userInput.trim()`: the trimmed string is
empty exactly when every character of the input is whitespace (the
characters removed by `String.prototype.trim`). -/
def jsWhitespace (c : Char) : Bool :=
  c = ' ' || c = '\t' || c = '\n' || c = '\r' || c = '\x0b' || c = '\x0c'
    || c = '\u00a0' || c = '\u1680' || c = '\u2028' || c = '\u2029'
    || c = '\u202f' || c = '\u205f' || c = '\u3000' || c = '\ufeff'
    || ('\u2000' ≤ c && c ≤ '\u200a')

/-- Whether `!userInput.trim()` holds. -/
def trimmedEmpty (s : String) : Bool :=
  s.data.all jsWhitespace

def initErrorText : String :=
  "Sorry, something went wrong while starting our session. Please refresh the page."

def sendErrorText : String :=
  "I seem to be having trouble connecting. Please try again in a moment."

/-- The synthetic BOT message the initialization catch block installs. -/
def initErrorMsg : Message :=
  ⟨"error-init", initErrorText, Sender.BOT⟩

/-- The empty placeholder BOT message created by `initializeChat`. -/
def initPlaceholder (t : Nat) : Message :=
  ⟨"bot-init-" ++ toString t, "", Sender.BOT⟩

/-- The USER message `handleSendMessage` creates from the input field. -/
def userMsg (t : Nat) (input : String) : Message :=
  ⟨"user-" ++ toString t, input, Sender.USER⟩

/-- The identifier of the reply placeholder of `handleSendMessage`. -/
def botMsgId (t : Nat) : String :=
  "bot-" ++ toString t

/-- The synthetic BOT message the send catch block appends. -/
def sendErrorMsg (t : Nat) : Message :=
  ⟨"error-" ++ toString t, sendErrorText, Sender.BOT⟩

/-- The successive values of the accumulator `text` over a fragment
list: after each chunk, `text` is the concatenation of the fragments
seen so far (starting from `acc`). -/
def accTexts (acc : String) : List String → List String
  | [] => []
  | f :: fs => (acc ++ f) :: accTexts (acc ++ f) fs

/-- The concatenation of all fragments in order. -/
def concatFrags (fs : List String) : String :=
  fs.foldl (· ++ ·) ""

/-- One streaming update of `handleSendMessage`:
`prev.map(msg => msg.id === botMessageId ? { ...msg, text: text } : msg)`. -/
def mergeChunk (bid txt : String) (ms : List Message) : List Message :=
  ms.map fun m => if m.id = bid then { m with text := txt } else m

/-- The successive message lists published by the streaming loop of
`handleSendMessage`: each arriving fragment extends the accumulator and
merges it into the previous list by identifier. -/
def streamSteps (bid acc : String) (ms : List Message) :
    List String → List (List Message)
  | [] => []
  | f :: fs =>
    let ms2 := mergeChunk bid (acc ++ f) ms
    ms2 :: streamSteps bid (acc ++ f) ms2 fs

/-- The render trace of `initializeChat`.  The synchronous prefix
(`setIsLoading(true)`, `setChat`, the placeholder publication) batches
into the first render; each chunk of the stream then produces one
render replacing the list by the single updated bot message; the catch
block replaces the list by `initErrorMsg`; the finally block always
clears `isLoading`. -/
def initializeChat (s : AppState) (t : Nat) : InitOutcome → List AppState
  | .createFail =>
    [{ s with messages := [initErrorMsg], isLoading := false }]
  | .sendFail =>
    [{ s with chat := true, messages := [initPlaceholder t], isLoading := true },
     { s with chat := true, messages := [initErrorMsg], isLoading := false }]
  | .streamErr cs =>
    ({ s with chat := true, messages := [initPlaceholder t], isLoading := true } ::
      (accTexts "" cs).map fun txt =>
        { s with chat := true,
                 messages := [{ initPlaceholder t with text := txt }],
                 isLoading := true })
    ++ [{ s with chat := true, messages := [initErrorMsg], isLoading := false }]
  | .ok fs =>
    ({ s with chat := true, messages := [initPlaceholder t], isLoading := true } ::
      (accTexts "" fs).map fun txt =>
        { s with chat := true,
                 messages := [{ initPlaceholder t with text := txt }],
                 isLoading := true })
    ++ [{ s with chat := true,
                 messages := [{ initPlaceholder t with text := concatFrags fs }],
                 isLoading := false }]

/-- The render trace of `handleSendMessage`.  The guard
`if (!userInput.trim() || isLoading || !chat) return;` produces no state
update at all.  Otherwise the user message append, the input clear and
`setIsLoading(true)` batch into the first render; the reply placeholder
is published only after `await chat.sendMessageStream(...)` resolves;
each chunk produces one render merging the accumulated text into the
placeholder by identifier; the catch block appends `sendErrorMsg`; the
finally block always clears `isLoading`. -/
def handleSendMessage (s : AppState) (t1 t2 t3 : Nat) (o : SendOutcome) :
    List AppState :=
  if trimmedEmpty s.userInput || s.isLoading || !s.chat then []
  else
    let ms0 := s.messages ++ [userMsg t1 s.userInput]
    let s0 : AppState := { s with messages := ms0, userInput := "", isLoading := true }
    match o with
    | .sendFail =>
      [s0, { s0 with messages := ms0 ++ [sendErrorMsg t3], isLoading := false }]
    | .streamErr cs =>
      let ms1 := ms0 ++ [⟨botMsgId t2, "", Sender.BOT⟩]
      let steps := streamSteps (botMsgId t2) "" ms1 cs
      let finalMs := steps.getLastD ms1 ++ [sendErrorMsg t3]
      (s0 :: { s0 with messages := ms1 } :: steps.map fun ms => { s0 with messages := ms })
        ++ [{ s0 with messages := finalMs, isLoading := false }]
    | .ok fs =>
      let ms1 := ms0 ++ [⟨botMsgId t2, "", Sender.BOT⟩]
      let steps := streamSteps (botMsgId t2) "" ms1 fs
      (s0 :: { s0 with messages := ms1 } :: steps.map fun ms => { s0 with messages := ms })
        ++ [{ s0 with messages := steps.getLastD ms1, isLoading := false }]

/-- The state after an operation: the last render of its trace (the
pre-state when the operation performed no update). -/
def finalState (s : AppState) (tr : List AppState) : AppState :=
  tr.getLastD s

/-- The `disabled` attribute of the text input is exactly `isLoading`. -/
def inputDisabled (s : AppState) : Bool :=
  s.isLoading

/-- The `disabled` attribute of the send button:
`isLoading || !userInput.trim()`. -/
def sendButtonDisabled (s : AppState) : Bool :=
  s.isLoading || trimmedEmpty s.userInput

/-- The typing indicator renders iff `isLoading && messages.length > 0`. -/
def typingIndicatorShown (s : AppState) : Bool :=
  s.isLoading && !s.messages.isEmpty

/-- The component state at mount: no session, no messages, empty input,
and `isLoading` initialized to `true`. -/
def initialState : AppState :=
  ⟨false, [], "", true⟩

/-- One user-visible event of a conversation: the automatic
initialization, or typing `input` and submitting the form. -/
inductive Event where
  | init (t : Nat) (o : InitOutcome)
  | send (input : String) (t1 t2 t3 : Nat) (o : SendOutcome)
deriving Repr

def stepEvent (s : AppState) : Event → AppState
  | .init t o => finalState s (initializeChat s t o)
  | .send input t1 t2 t3 o =>
    let s2 : AppState := { s with userInput := input }
    finalState s2 (handleSendMessage s2 t1 t2 t3 o)

/-- Run a conversation: fold the events over the mount state. -/
def runEvents (s : AppState) (es : List Event) : AppState :=
  es.foldl stepEvent s

/-- The texts of the message with identifier `bid` at the successive
renders of a trace (skipping renders where no such message exists). -/
def botTexts (bid : String) (tr : List AppState) : List String :=
  tr.filterMap fun st => (st.messages.find? fun m => m.id == bid).map Message.text

/-! ## Helper lemmas -/

theorem user_id_ne_bot_id (a b : String) : "user-" ++ a ≠ "bot-" ++ b := by
  intro h
  rw [String.ext_iff, String.data_append, String.data_append,
    show "user-".data = 'u' :: 's' :: 'e' :: 'r' :: '-' :: [] from rfl,
    show "bot-".data = 'b' :: 'o' :: 't' :: '-' :: [] from rfl] at h
  simp only [List.cons_append, List.cons.injEq] at h
  exact absurd h.1 (by decide)

theorem user_id_ne_error_id (a b : String) : "user-" ++ a ≠ "error-" ++ b := by
  intro h
  rw [String.ext_iff, String.data_append, String.data_append,
    show "user-".data = 'u' :: 's' :: 'e' :: 'r' :: '-' :: [] from rfl,
    show "error-".data = 'e' :: 'r' :: 'r' :: 'o' :: 'r' :: '-' :: [] from rfl] at h
  simp only [List.cons_append, List.cons.injEq] at h
  exact absurd h.1 (by decide)

theorem bot_id_ne_error_id (a b : String) : "bot-" ++ a ≠ "error-" ++ b := by
  intro h
  rw [String.ext_iff, String.data_append, String.data_append,
    show "bot-".data = 'b' :: 'o' :: 't' :: '-' :: [] from rfl,
    show "error-".data = 'e' :: 'r' :: 'r' :: 'o' :: 'r' :: '-' :: [] from rfl] at h
  simp only [List.cons_append, List.cons.injEq] at h
  exact absurd h.1 (by decide)

theorem mergeChunk_fresh (bid txt old : String) (sd : Sender) (ms0 : List Message)
    (hf : ∀ m ∈ ms0, m.id ≠ bid) :
    mergeChunk bid txt (ms0 ++ [⟨bid, old, sd⟩]) = ms0 ++ [⟨bid, txt, sd⟩] := by
  unfold mergeChunk
  rw [List.map_append]
  congr 1
  · conv_rhs => rw [show ms0 = ms0.map id from (List.map_id ms0).symm]
    apply List.map_congr_left
    intro m hm
    simp [hf m hm]
  · simp

/-- The id of a message is untouched by a merge step. -/
theorem mergeChunk_map_id (bid txt : String) (ms : List Message) :
    (mergeChunk bid txt ms).map Message.id = ms.map Message.id := by
  unfold mergeChunk
  rw [List.map_map]
  apply List.map_congr_left
  intro m _
  by_cases h : m.id = bid <;> simp [h]

theorem streamSteps_spec (bid : String) (ms0 : List Message) (sd : Sender)
    (hf : ∀ m ∈ ms0, m.id ≠ bid) :
    ∀ (cs : List String) (acc old : String),
      streamSteps bid acc (ms0 ++ [⟨bid, old, sd⟩]) cs
        = (accTexts acc cs).map fun txt => ms0 ++ [⟨bid, txt, sd⟩] := by
  intro cs
  induction cs with
  | nil => intro acc old; simp [streamSteps, accTexts]
  | cons f fs ih =>
    intro acc old
    simp only [streamSteps, accTexts, List.map_cons]
    rw [mergeChunk_fresh bid (acc ++ f) old sd ms0 hf, ih (acc ++ f) (acc ++ f)]

theorem accTexts_getLastD (cs : List String) :
    ∀ acc, (accTexts acc cs).getLastD acc = cs.foldl (· ++ ·) acc := by
  induction cs with
  | nil => intro acc; simp [accTexts]
  | cons f fs ih =>
    intro acc
    simp only [accTexts, List.foldl_cons, List.getLastD_cons]
    exact ih (acc ++ f)

theorem getLastD_map {α β : Type} (f : α → β) (l : List α) :
    ∀ d, (l.map f).getLastD (f d) = f (l.getLastD d) := by
  induction l with
  | nil => intro d; simp
  | cons a l ih =>
    intro d
    simp only [List.map_cons, List.getLastD_cons]
    exact ih a

theorem find?_append_of_none {α : Type} (p : α → Bool) (l1 l2 : List α)
    (h : ∀ m ∈ l1, p m = false) :
    List.find? p (l1 ++ l2) = List.find? p l2 := by
  induction l1 with
  | nil => simp
  | cons a l ih =>
    rw [List.cons_append, List.find?_cons, h a (by simp)]
    exact ih fun m hm => h m (by simp [hm])

/-- The last streaming state of a fresh placeholder run carries the full
concatenation of the consumed fragments. -/
theorem streamSteps_getLastD (bid : String) (ms0 : List Message) (sd : Sender)
    (hf : ∀ m ∈ ms0, m.id ≠ bid) (cs : List String) :
    (streamSteps bid "" (ms0 ++ [⟨bid, "", sd⟩]) cs).getLastD (ms0 ++ [⟨bid, "", sd⟩])
      = ms0 ++ [⟨bid, concatFrags cs, sd⟩] := by
  rw [streamSteps_spec bid ms0 sd hf cs "" ""]
  rw [show (ms0 ++ [(⟨bid, "", sd⟩ : Message)])
      = (fun txt => ms0 ++ [(⟨bid, txt, sd⟩ : Message)]) "" from rfl]
  rw [getLastD_map, accTexts_getLastD]
  rfl

/-- Freshness of the reply placeholder extends over the appended user
message, whose id carries a different literal head. -/
theorem fresh_snoc_user (s : AppState) (t1 t2 : Nat)
    (hf : ∀ m ∈ s.messages, m.id ≠ botMsgId t2) :
    ∀ m ∈ s.messages ++ [userMsg t1 s.userInput], m.id ≠ botMsgId t2 := by
  intro m hm
  rcases List.mem_append.mp hm with h | h
  · exact hf m h
  · rw [List.mem_singleton.mp h]
    exact user_id_ne_bot_id (toString t1) (toString t2)

/-- Normal form of the `handleSendMessage` trace when the guard passes
and the stream fails at initiation. -/
theorem handleSendMessage_sendFail_eq (s : AppState) (t1 t2 t3 : Nat)
    (h1 : trimmedEmpty s.userInput = false) (h2 : s.isLoading = false)
    (h3 : s.chat = true) :
    handleSendMessage s t1 t2 t3 .sendFail =
      [{ s with messages := s.messages ++ [userMsg t1 s.userInput],
                userInput := "", isLoading := true },
       { s with messages := s.messages ++ [userMsg t1 s.userInput, sendErrorMsg t3],
                userInput := "", isLoading := false }] := by
  unfold handleSendMessage
  simp [h1, h2, h3]

/-- Normal form of the `handleSendMessage` trace when the guard passes
and the stream succeeds with fragments `fs`. -/
theorem handleSendMessage_ok_eq (s : AppState) (t1 t2 t3 : Nat) (fs : List String)
    (h1 : trimmedEmpty s.userInput = false) (h2 : s.isLoading = false)
    (h3 : s.chat = true)
    (hf : ∀ m ∈ s.messages, m.id ≠ botMsgId t2) :
    handleSendMessage s t1 t2 t3 (.ok fs) =
      ({ s with messages := s.messages ++ [userMsg t1 s.userInput],
                userInput := "", isLoading := true }
        :: { s with
              messages := s.messages
                ++ [userMsg t1 s.userInput, ⟨botMsgId t2, "", Sender.BOT⟩],
              userInput := "", isLoading := true }
        :: (accTexts "" fs).map fun txt =>
            { s with
              messages := s.messages
                ++ [userMsg t1 s.userInput, ⟨botMsgId t2, txt, Sender.BOT⟩],
              userInput := "", isLoading := true })
      ++ [{ s with
            messages := s.messages
              ++ [userMsg t1 s.userInput, ⟨botMsgId t2, concatFrags fs, Sender.BOT⟩],
            userInput := "", isLoading := false }] := by
  have hf2 := fresh_snoc_user s t1 t2 hf
  unfold handleSendMessage
  simp only [h1, h2, h3, Bool.false_or, Bool.not_true, Bool.or_false, if_neg,
    Bool.false_eq_true, not_false_eq_true]
  rw [show s.messages ++ [userMsg t1 s.userInput] ++ [(⟨botMsgId t2, "", Sender.BOT⟩ : Message)]
      = (s.messages ++ [userMsg t1 s.userInput]) ++ [(⟨botMsgId t2, "", Sender.BOT⟩ : Message)] from rfl]
  rw [streamSteps_getLastD (botMsgId t2) (s.messages ++ [userMsg t1 s.userInput]) Sender.BOT hf2,
    streamSteps_spec (botMsgId t2) (s.messages ++ [userMsg t1 s.userInput]) Sender.BOT hf2]
  simp [List.map_map, List.append_assoc, Function.comp]

/-- Normal form of the `handleSendMessage` trace when the guard passes
and the stream fails after yielding the fragments `cs`. -/
theorem handleSendMessage_streamErr_eq (s : AppState) (t1 t2 t3 : Nat)
    (cs : List String)
    (h1 : trimmedEmpty s.userInput = false) (h2 : s.isLoading = false)
    (h3 : s.chat = true)
    (hf : ∀ m ∈ s.messages, m.id ≠ botMsgId t2) :
    handleSendMessage s t1 t2 t3 (.streamErr cs) =
      ({ s with messages := s.messages ++ [userMsg t1 s.userInput],
                userInput := "", isLoading := true }
        :: { s with
              messages := s.messages
                ++ [userMsg t1 s.userInput, ⟨botMsgId t2, "", Sender.BOT⟩],
              userInput := "", isLoading := true }
        :: (accTexts "" cs).map fun txt =>
            { s with
              messages := s.messages
                ++ [userMsg t1 s.userInput, ⟨botMsgId t2, txt, Sender.BOT⟩],
              userInput := "", isLoading := true })
      ++ [{ s with
            messages := s.messages
              ++ [userMsg t1 s.userInput, ⟨botMsgId t2, concatFrags cs, Sender.BOT⟩,
                  sendErrorMsg t3],
            userInput := "", isLoading := false }] := by
  have hf2 := fresh_snoc_user s t1 t2 hf
  unfold handleSendMessage
  simp only [h1, h2, h3, Bool.false_or, Bool.not_true, Bool.or_false, if_neg,
    Bool.false_eq_true, not_false_eq_true]
  rw [show s.messages ++ [userMsg t1 s.userInput] ++ [(⟨botMsgId t2, "", Sender.BOT⟩ : Message)]
      = (s.messages ++ [userMsg t1 s.userInput]) ++ [(⟨botMsgId t2, "", Sender.BOT⟩ : Message)] from rfl]
  rw [streamSteps_getLastD (botMsgId t2) (s.messages ++ [userMsg t1 s.userInput]) Sender.BOT hf2,
    streamSteps_spec (botMsgId t2) (s.messages ++ [userMsg t1 s.userInput]) Sender.BOT hf2]
  simp [List.map_map, List.append_assoc, Function.comp]

/-- When the guard fails, `handleSendMessage` performs no state update. -/
theorem handleSendMessage_noop (s : AppState) (t1 t2 t3 : Nat) (o : SendOutcome)
    (h : trimmedEmpty s.userInput = true ∨ s.isLoading = true ∨ s.chat = false) :
    handleSendMessage s t1 t2 t3 o = [] := by
  unfold handleSendMessage
  rcases h with h | h | h <;> simp [h]

theorem getLast?_cons_snoc {α : Type} (c a : α) (l : List α) :
    (c :: (l ++ [a])).getLast? = some a := by
  rw [← List.cons_append, List.getLast?_concat]

/-- Every render of an `initializeChat` trace except the last carries
`isLoading = true`, and the last carries `isLoading = false`. -/
theorem initializeChat_loading_shape (s : AppState) (t : Nat) (o : InitOutcome) :
    (∀ st ∈ (initializeChat s t o).dropLast, st.isLoading = true)
    ∧ (finalState s (initializeChat s t o)).isLoading = false := by
  cases o with
  | createFail =>
    refine ⟨?_, by simp [initializeChat, finalState, getLast?_cons_snoc]⟩
    intro st hst
    simp [initializeChat] at hst
  | sendFail =>
    refine ⟨?_, by simp [initializeChat, finalState, getLast?_cons_snoc]⟩
    intro st hst
    simp [initializeChat] at hst
    rw [hst]
  | streamErr cs =>
    refine ⟨?_, by simp [initializeChat, finalState, getLast?_cons_snoc]⟩
    intro st hst
    simp only [initializeChat, List.dropLast_concat] at hst
    rcases List.mem_cons.mp hst with h | h
    · rw [h]
    · obtain ⟨txt, _, h⟩ := List.mem_map.mp h
      rw [← h]
  | ok fs =>
    refine ⟨?_, by simp [initializeChat, finalState, getLast?_cons_snoc]⟩
    intro st hst
    simp only [initializeChat, List.dropLast_concat] at hst
    rcases List.mem_cons.mp hst with h | h
    · rw [h]
    · obtain ⟨txt, _, h⟩ := List.mem_map.mp h
      rw [← h]

/-- Every render of a guard-passing `handleSendMessage` trace except the
last carries `isLoading = true`, and the last carries
`isLoading = false`. -/
theorem handleSendMessage_loading_shape (s : AppState) (t1 t2 t3 : Nat)
    (o : SendOutcome)
    (h1 : trimmedEmpty s.userInput = false) (h2 : s.isLoading = false)
    (h3 : s.chat = true) :
    (∀ st ∈ (handleSendMessage s t1 t2 t3 o).dropLast, st.isLoading = true)
    ∧ (finalState s (handleSendMessage s t1 t2 t3 o)).isLoading = false := by
  unfold handleSendMessage
  simp only [h1, h2, h3, Bool.not_true, Bool.or_false, Bool.false_or,
    Bool.false_eq_true, if_false]
  cases o with
  | sendFail =>
    refine ⟨?_, by simp [finalState, getLast?_cons_snoc]⟩
    intro st hst
    simp at hst
    rw [hst]
  | streamErr cs =>
    refine ⟨?_, by simp [finalState, getLast?_cons_snoc]⟩
    intro st hst
    simp only [List.dropLast_concat] at hst
    rcases List.mem_cons.mp hst with h | h
    · rw [h]
    · rcases List.mem_cons.mp h with h | h
      · rw [h]
      · obtain ⟨ms, _, h⟩ := List.mem_map.mp h
        rw [← h]
  | ok fs =>
    refine ⟨?_, by simp [finalState, getLast?_cons_snoc]⟩
    intro st hst
    simp only [List.dropLast_concat] at hst
    rcases List.mem_cons.mp hst with h | h
    · rw [h]
    · rcases List.mem_cons.mp h with h | h
      · rw [h]
      · obtain ⟨ms, _, h⟩ := List.mem_map.mp h
        rw [← h]

/-- Final message list of `initializeChat` on each failure outcome. -/
theorem initializeChat_final_messages_fail (s : AppState) (t : Nat) :
    (finalState s (initializeChat s t .createFail)).messages = [initErrorMsg]
    ∧ (finalState s (initializeChat s t .sendFail)).messages = [initErrorMsg]
    ∧ ∀ cs, (finalState s (initializeChat s t (.streamErr cs))).messages
        = [initErrorMsg] := by
  refine ⟨by simp [initializeChat, finalState], by simp [initializeChat, finalState], ?_⟩
  intro cs
  simp [initializeChat, finalState, getLast?_cons_snoc]

/-- Final message list of `initializeChat` on success. -/
theorem initializeChat_final_messages_ok (s : AppState) (t : Nat) (fs : List String) :
    (finalState s (initializeChat s t (.ok fs))).messages
      = [{ initPlaceholder t with text := concatFrags fs }] := by
  simp [initializeChat, finalState, getLast?_cons_snoc]

/-- Final state of a guard-passing `handleSendMessage` on each outcome. -/
theorem handleSendMessage_final_sendFail (s : AppState) (t1 t2 t3 : Nat)
    (h1 : trimmedEmpty s.userInput = false) (h2 : s.isLoading = false)
    (h3 : s.chat = true) :
    finalState s (handleSendMessage s t1 t2 t3 .sendFail)
      = { s with messages := s.messages ++ [userMsg t1 s.userInput, sendErrorMsg t3],
                 userInput := "", isLoading := false } := by
  rw [finalState, handleSendMessage_sendFail_eq s t1 t2 t3 h1 h2 h3]
  rfl

theorem handleSendMessage_final_ok (s : AppState) (t1 t2 t3 : Nat) (fs : List String)
    (h1 : trimmedEmpty s.userInput = false) (h2 : s.isLoading = false)
    (h3 : s.chat = true)
    (hf : ∀ m ∈ s.messages, m.id ≠ botMsgId t2) :
    finalState s (handleSendMessage s t1 t2 t3 (.ok fs))
      = { s with
          messages := s.messages
            ++ [userMsg t1 s.userInput, ⟨botMsgId t2, concatFrags fs, Sender.BOT⟩],
          userInput := "", isLoading := false } := by
  rw [finalState, handleSendMessage_ok_eq s t1 t2 t3 fs h1 h2 h3 hf]
  simp [getLast?_cons_snoc]

theorem handleSendMessage_final_streamErr (s : AppState) (t1 t2 t3 : Nat)
    (cs : List String)
    (h1 : trimmedEmpty s.userInput = false) (h2 : s.isLoading = false)
    (h3 : s.chat = true)
    (hf : ∀ m ∈ s.messages, m.id ≠ botMsgId t2) :
    finalState s (handleSendMessage s t1 t2 t3 (.streamErr cs))
      = { s with
          messages := s.messages
            ++ [userMsg t1 s.userInput, ⟨botMsgId t2, concatFrags cs, Sender.BOT⟩,
                sendErrorMsg t3],
          userInput := "", isLoading := false } := by
  rw [finalState, handleSendMessage_streamErr_eq s t1 t2 t3 cs h1 h2 h3 hf]
  simp [getLast?_cons_snoc]

/-- A star-free input is untouched by the bold replace (regardless of the
fuel, since the match needs an opening star pair). -/
theorem boldAux_no_star (fuel : Nat) :
    ∀ cs : List Char, (∀ c ∈ cs, c ≠ '*') → boldAux fuel cs = cs := by
  induction fuel with
  | zero => intro cs _; rfl
  | succ n ih =>
    intro cs h
    cases cs with
    | nil => rfl
    | cons c rest =>
      rw [boldAux, if_neg]
      · rw [ih rest fun c2 hc2 => h c2 (List.mem_cons_of_mem c hc2)]
      · intro hcon
        exact h c (List.mem_cons_self c rest) hcon.1

/-- A newline-free input is untouched by the line-break replace. -/
theorem brReplace_no_newline :
    ∀ cs : List Char, (∀ c ∈ cs, c ≠ '\n') → brReplace cs = cs := by
  intro cs h
  induction cs with
  | nil => rfl
  | cons c rest ih =>
    rw [brReplace, if_neg (h c (List.mem_cons_self c rest))]
    rw [ih fun c2 hc2 => h c2 (List.mem_cons_of_mem c hc2)]
    rfl

/-! ## Claims -/

/-- C8.  If the environment-supplied credential `process.env.API_KEY` is
absent (or falsy), the service module throws at load time with the fixed
fatal message, so no `GoogleGenAI` client exists and `createChatSession`
— which consumes that client — can never run; and whenever module
initialization does produce a client, the credential was present
(truthy): the program never silently proceeds without it. -/
theorem c8_missing_credential_fatal :
    (geminiModuleInit none = .error "API_KEY environment variable not set"
      ∧ geminiModuleInit (some "") = .error "API_KEY environment variable not set")
    ∧ ∀ (env : Option String) (ai : GoogleGenAI),
        geminiModuleInit env = .ok ai → apiKeyTruthy env = true := by
  refine ⟨⟨rfl, by rw [geminiModuleInit, if_pos (by decide)]⟩, ?_⟩
  intro env ai h
  cases env with
  | none => simp [geminiModuleInit] at h
  | some k =>
    simp only [geminiModuleInit] at h
    by_cases hk : k.isEmpty
    · rw [if_pos hk] at h
      exact absurd h (by simp)
    · simp only [apiKeyTruthy, Bool.not_eq_true']
      exact Bool.not_eq_true _ ▸ (by simpa using hk)

/-- C8 witness: with a present credential the module initializes, and the
theorem yields that the credential was truthy. -/
theorem c8_missing_credential_fatal_witness :
    apiKeyTruthy (some "secret") = true :=
  c8_missing_credential_fatal.2 (some "secret") ⟨"secret"⟩ (by rw [geminiModuleInit, if_neg (by decide)])

/-- C2 counterexample.  The claim says `formatText` escapes every
markup-significant character before applying the whitelisted transforms,
so that a literal script tag renders as inert text.  In fact `formatText`
performs no escaping at all: the script-tag input below is returned
verbatim, and since `ChatBubble` injects the result with
`dangerouslySetInnerHTML`, it reaches the rendering surface as live,
executable markup. -/
theorem c2_formatText_counterexample :
    formatText "<script>alert(1)</script>" = "<script>alert(1)</script>" := by
  decide

/-- C2 amended.  `formatText` applies only the two whitelisted transforms
and performs no escaping: every input free of stars and newlines — in
particular one full of markup-significant characters — passes through
verbatim, while `**…**` becomes a strong element and newlines become
`<br />` (the spec's positive formatting example).  An input containing a
literal script tag therefore stays executable markup, not inert text. -/
theorem c2_formatText_whitelist_only :
    (∀ s : String, (∀ c ∈ s.data, c ≠ '*' ∧ c ≠ '\n') → formatText s = s)
    ∧ formatText "**Data Scientist**\nGreat fit"
        = "<strong class=\"font-semibold\">Data Scientist</strong><br />Great fit" := by
  refine ⟨?_, by decide⟩
  intro s h
  rw [formatText, boldReplace, boldAux_no_star s.data.length s.data fun c hc => (h c hc).1,
    brReplace_no_newline s.data fun c hc => (h c hc).2]

/-- C2 amended witness: a markup-heavy, star- and newline-free input is
returned verbatim. -/
theorem c2_formatText_whitelist_only_witness :
    (∀ c ∈ ("<b>&amp;</b>" : String).data, c ≠ '*' ∧ c ≠ '\n')
    ∧ formatText "<b>&amp;</b>" = "<b>&amp;</b>" :=
  ⟨by decide, c2_formatText_whitelist_only.1 "<b>&amp;</b>" (by decide)⟩

/-- C7 counterexample.  The claim says the input control is disabled iff
`pending` is true or the session failed to initialize.  After a failed
`createChatSession` the final state has no session (`chat = false`) and
`isLoading = false`, yet the input's `disabled` attribute — which the
component computes as `isLoading` alone — is `false`: the input is
enabled although the session failed to initialize. -/
theorem c7_inputDisabled_counterexample :
    inputDisabled (finalState initialState
        (initializeChat initialState 0 .createFail)) = false
    ∧ (finalState initialState (initializeChat initialState 0 .createFail)).chat
        = false
    ∧ (finalState initialState (initializeChat initialState 0 .createFail)).isLoading
        = false := by
  decide

/-- C7 amended.  The input control is disabled iff `pending`
(`isLoading`): it is disabled at every render of an operation except the
final one and enabled at the final render; after a failed initialization
the input stays enabled, but submitting is harmless because with no
session (`chat = false`) `handleSendMessage` performs no state update at
all. -/
theorem c7_inputDisabled_iff_pending :
    (∀ s : AppState, inputDisabled s = true ↔ s.isLoading = true)
    ∧ (∀ (s : AppState) (t : Nat) (o : InitOutcome),
        (∀ st ∈ (initializeChat s t o).dropLast, inputDisabled st = true)
        ∧ inputDisabled (finalState s (initializeChat s t o)) = false)
    ∧ (∀ (s : AppState) (t1 t2 t3 : Nat) (o : SendOutcome),
        trimmedEmpty s.userInput = false → s.isLoading = false → s.chat = true →
        (∀ st ∈ (handleSendMessage s t1 t2 t3 o).dropLast, inputDisabled st = true)
        ∧ inputDisabled (finalState s (handleSendMessage s t1 t2 t3 o)) = false)
    ∧ (∀ (s : AppState) (t1 t2 t3 : Nat) (o : SendOutcome),
        s.chat = false → handleSendMessage s t1 t2 t3 o = []) := by
  refine ⟨fun s => Iff.rfl, ?_, ?_, ?_⟩
  · intro s t o
    exact initializeChat_loading_shape s t o
  · intro s t1 t2 t3 o h1 h2 h3
    exact handleSendMessage_loading_shape s t1 t2 t3 o h1 h2 h3
  · intro s t1 t2 t3 o h
    exact handleSendMessage_noop s t1 t2 t3 o (Or.inr (Or.inr h))

/-- C7 amended witness: instantiated on the post-failed-initialization
state, whose input is enabled and whose submissions are no-ops. -/
theorem c7_inputDisabled_iff_pending_witness :
    trimmedEmpty (AppState.mk true [] "hi" false).userInput = false
    ∧ (AppState.mk true [] "hi" false).isLoading = false
    ∧ (AppState.mk true [] "hi" false).chat = true
    ∧ inputDisabled (finalState (AppState.mk true [] "hi" false)
        (handleSendMessage (AppState.mk true [] "hi" false) 1 2 3 (.ok ["x"]))) = false
    ∧ (AppState.mk false [] "hi" false).chat = false
    ∧ handleSendMessage (AppState.mk false [] "hi" false) 1 2 3 (.ok ["x"]) = [] := by
  refine ⟨by decide, rfl, rfl, ?_, rfl, ?_⟩
  · exact (c7_inputDisabled_iff_pending.2.2.1 (AppState.mk true [] "hi" false)
      1 2 3 (.ok ["x"]) (by decide) rfl rfl).2
  · exact c7_inputDisabled_iff_pending.2.2.2 (AppState.mk false [] "hi" false)
      1 2 3 (.ok ["x"]) rfl

/-- C3.  Error recovery is asymmetric.  Every failure of `initializeChat`
(session creation, stream initiation, or mid-stream) replaces the whole
message list by the single synthetic BOT message `initErrorMsg`.  A
failure of a guard-passing `handleSendMessage` instead appends exactly
one synthetic BOT message `sendErrorMsg t3` after the messages present at
the moment of failure, and the pre-existing messages survive verbatim as
a prefix: at initiation failure after the user message, at mid-stream
failure after the user message and the partially filled placeholder. -/
theorem c3_error_recovery_asymmetry :
    (∀ (s : AppState) (t : Nat),
        (finalState s (initializeChat s t .createFail)).messages = [initErrorMsg]
        ∧ (finalState s (initializeChat s t .sendFail)).messages = [initErrorMsg]
        ∧ ∀ cs, (finalState s (initializeChat s t (.streamErr cs))).messages
            = [initErrorMsg])
    ∧ (∀ (s : AppState) (t1 t2 t3 : Nat),
        trimmedEmpty s.userInput = false → s.isLoading = false → s.chat = true →
        (∀ m ∈ s.messages, m.id ≠ botMsgId t2) →
        (finalState s (handleSendMessage s t1 t2 t3 .sendFail)).messages
          = (s.messages ++ [userMsg t1 s.userInput]) ++ [sendErrorMsg t3]
        ∧ ∀ cs, (finalState s (handleSendMessage s t1 t2 t3 (.streamErr cs))).messages
            = (s.messages ++ [userMsg t1 s.userInput,
                ⟨botMsgId t2, concatFrags cs, Sender.BOT⟩]) ++ [sendErrorMsg t3]) := by
  refine ⟨fun s t => initializeChat_final_messages_fail s t, ?_⟩
  intro s t1 t2 t3 h1 h2 h3 hf
  constructor
  · rw [handleSendMessage_final_sendFail s t1 t2 t3 h1 h2 h3]
    simp
  · intro cs
    rw [handleSendMessage_final_streamErr s t1 t2 t3 cs h1 h2 h3 hf]
    simp

/-- C3 witness: a failed bootstrap stream leaves exactly the synthetic
initialization error, and a mid-stream send failure appends exactly the
synthetic transport error after the intact history. -/
theorem c3_error_recovery_asymmetry_witness :
    (finalState initialState (initializeChat initialState 0 (.streamErr ["Wel"]))).messages
      = [initErrorMsg]
    ∧ (finalState (AppState.mk true [initErrorMsg] "go" false)
        (handleSendMessage (AppState.mk true [initErrorMsg] "go" false) 1 2 3
          (.streamErr ["pa"]))).messages
      = ([initErrorMsg] ++ [userMsg 1 "go", ⟨botMsgId 2, concatFrags ["pa"], Sender.BOT⟩])
        ++ [sendErrorMsg 3] :=
  ⟨(c3_error_recovery_asymmetry.1 initialState 0).2.2 ["Wel"],
   (c3_error_recovery_asymmetry.2 (AppState.mk true [initErrorMsg] "go" false)
      1 2 3 (by decide) rfl rfl (by decide)).2 ["pa"]⟩

/-- C4.  The pending flag (`isLoading`) is true at every render of an
operation except the operation's final render, which always — success or
failure, for `initializeChat` and for guard-passing `handleSendMessage`
alike — clears it to false; and the guarded early return of
`handleSendMessage` performs no state update at all, so it never leaves
`pending` set. -/
theorem c4_pending_flag :
    (∀ (s : AppState) (t : Nat) (o : InitOutcome),
        (∀ st ∈ (initializeChat s t o).dropLast, st.isLoading = true)
        ∧ (finalState s (initializeChat s t o)).isLoading = false)
    ∧ (∀ (s : AppState) (t1 t2 t3 : Nat) (o : SendOutcome),
        trimmedEmpty s.userInput = false → s.isLoading = false → s.chat = true →
        (∀ st ∈ (handleSendMessage s t1 t2 t3 o).dropLast, st.isLoading = true)
        ∧ (finalState s (handleSendMessage s t1 t2 t3 o)).isLoading = false)
    ∧ (∀ (s : AppState) (t1 t2 t3 : Nat) (o : SendOutcome),
        trimmedEmpty s.userInput = true ∨ s.isLoading = true ∨ s.chat = false →
        handleSendMessage s t1 t2 t3 o = []) :=
  ⟨initializeChat_loading_shape,
   fun s t1 t2 t3 o h1 h2 h3 => handleSendMessage_loading_shape s t1 t2 t3 o h1 h2 h3,
   handleSendMessage_noop⟩

/-- C4 witness: concrete round trips end with `pending` cleared, and a
guarded submission while busy performs no update. -/
theorem c4_pending_flag_witness :
    (finalState initialState (initializeChat initialState 0 (.ok ["hi"]))).isLoading
      = false
    ∧ (trimmedEmpty "go" = false
        ∧ (finalState (AppState.mk true [] "go" false)
            (handleSendMessage (AppState.mk true [] "go" false) 1 2 3 .sendFail)).isLoading
          = false)
    ∧ handleSendMessage (AppState.mk true [] "go" true) 1 2 3 (.ok ["x"]) = [] :=
  ⟨(c4_pending_flag.1 initialState 0 (.ok ["hi"])).2,
   ⟨by decide,
    (c4_pending_flag.2.1 (AppState.mk true [] "go" false) 1 2 3 .sendFail
      (by decide) rfl rfl).2⟩,
   c4_pending_flag.2.2 (AppState.mk true [] "go" true) 1 2 3 (.ok ["x"])
     (Or.inr (Or.inl rfl))⟩

/-- C5.  `handleSendMessage` is a no-op (no state update, message list
untouched) when the input is empty or whitespace-only, when `pending` is
true, or when no session exists; otherwise it appends exactly one USER
message carrying the literal (untrimmed) input at the end of the existing
list, and everything added after it during the turn is BOT-sent. -/
theorem c5_submitUserTurn :
    (∀ (s : AppState) (t1 t2 t3 : Nat) (o : SendOutcome),
        trimmedEmpty s.userInput = true ∨ s.isLoading = true ∨ s.chat = false →
        handleSendMessage s t1 t2 t3 o = [])
    ∧ (∀ (s : AppState) (t1 t2 t3 : Nat) (o : SendOutcome),
        trimmedEmpty s.userInput = false → s.isLoading = false → s.chat = true →
        (∀ m ∈ s.messages, m.id ≠ botMsgId t2) →
        (userMsg t1 s.userInput).text = s.userInput
        ∧ (userMsg t1 s.userInput).sender = Sender.USER
        ∧ ∃ rest : List Message,
            (finalState s (handleSendMessage s t1 t2 t3 o)).messages
              = s.messages ++ userMsg t1 s.userInput :: rest
            ∧ ∀ m ∈ rest, m.sender = Sender.BOT) := by
  refine ⟨handleSendMessage_noop, ?_⟩
  intro s t1 t2 t3 o h1 h2 h3 hf
  refine ⟨rfl, rfl, ?_⟩
  cases o with
  | sendFail =>
    refine ⟨[sendErrorMsg t3], ?_, ?_⟩
    · rw [handleSendMessage_final_sendFail s t1 t2 t3 h1 h2 h3]
    · intro m hm
      rw [List.mem_singleton.mp hm]
      rfl
  | ok fs =>
    refine ⟨[⟨botMsgId t2, concatFrags fs, Sender.BOT⟩], ?_, ?_⟩
    · rw [handleSendMessage_final_ok s t1 t2 t3 fs h1 h2 h3 hf]
    · intro m hm
      rw [List.mem_singleton.mp hm]
  | streamErr cs =>
    refine ⟨[⟨botMsgId t2, concatFrags cs, Sender.BOT⟩, sendErrorMsg t3], ?_, ?_⟩
    · rw [handleSendMessage_final_streamErr s t1 t2 t3 cs h1 h2 h3 hf]
    · intro m hm
      rcases List.mem_cons.mp hm with h | h
      · rw [h]
      · rw [List.mem_singleton.mp h]
        rfl

/-- C5 witness: a whitespace-only input is ignored, and a successful turn
appends the USER message with the exact literal text. -/
theorem c5_submitUserTurn_witness :
    handleSendMessage (AppState.mk true [] "   " false) 1 2 3 (.ok ["x"]) = []
    ∧ ((userMsg 1 "  spaced  ").text = "  spaced  "
        ∧ ∃ rest : List Message,
            (finalState (AppState.mk true [] "  spaced  " false)
              (handleSendMessage (AppState.mk true [] "  spaced  " false) 1 2 3
                (.ok ["x"]))).messages
              = [] ++ userMsg 1 "  spaced  " :: rest
            ∧ ∀ m ∈ rest, m.sender = Sender.BOT) :=
  ⟨c5_submitUserTurn.1 (AppState.mk true [] "   " false) 1 2 3 (.ok ["x"])
      (Or.inl (by decide)),
   let h := c5_submitUserTurn.2 (AppState.mk true [] "  spaced  " false) 1 2 3
     (.ok ["x"]) (by decide) rfl rfl (by decide)
   ⟨h.1, h.2.2⟩⟩

/-- C10.  In `handleSendMessage` the reply placeholder is created only
after the stream is successfully initiated: on initiation failure the
turn adds exactly the USER message and the synthetic error message — two
messages, none of which carries the placeholder identifier — and on
mid-stream failure the partially filled placeholder (holding the
concatenation of the consumed fragments) remains immediately before the
appended error message. -/
theorem c10_placeholder_only_after_initiation :
    ∀ (s : AppState) (t1 t2 t3 : Nat),
      trimmedEmpty s.userInput = false → s.isLoading = false → s.chat = true →
      (∀ m ∈ s.messages, m.id ≠ botMsgId t2) →
      ((finalState s (handleSendMessage s t1 t2 t3 .sendFail)).messages
          = s.messages ++ [userMsg t1 s.userInput, sendErrorMsg t3]
        ∧ (finalState s (handleSendMessage s t1 t2 t3 .sendFail)).messages.length
          = s.messages.length + 2
        ∧ ∀ m ∈ (finalState s (handleSendMessage s t1 t2 t3 .sendFail)).messages,
            m.id ≠ botMsgId t2)
      ∧ ∀ cs, (finalState s (handleSendMessage s t1 t2 t3 (.streamErr cs))).messages
          = s.messages ++ [userMsg t1 s.userInput,
              ⟨botMsgId t2, concatFrags cs, Sender.BOT⟩, sendErrorMsg t3] := by
  intro s t1 t2 t3 h1 h2 h3 hf
  refine ⟨⟨?_, ?_, ?_⟩, ?_⟩
  · rw [handleSendMessage_final_sendFail s t1 t2 t3 h1 h2 h3]
  · rw [handleSendMessage_final_sendFail s t1 t2 t3 h1 h2 h3]
    simp
  · rw [handleSendMessage_final_sendFail s t1 t2 t3 h1 h2 h3]
    intro m hm
    simp only at hm
    rcases List.mem_append.mp hm with h | h
    · exact hf m h
    · rcases List.mem_cons.mp h with h | h
      · rw [h]
        exact user_id_ne_bot_id (toString t1) (toString t2)
      · rw [List.mem_singleton.mp h]
        exact fun hc => bot_id_ne_error_id (toString t2) (toString t3) hc.symm
  · intro cs
    rw [handleSendMessage_final_streamErr s t1 t2 t3 cs h1 h2 h3 hf]

/-- C10 witness: a turn that fails at initiation adds exactly the user
and error messages, and a mid-stream failure keeps the partial
placeholder right before the error message. -/
theorem c10_placeholder_only_after_initiation_witness :
    (finalState (AppState.mk true [] "go" false)
        (handleSendMessage (AppState.mk true [] "go" false) 1 2 3 .sendFail)).messages
      = [] ++ [userMsg 1 "go", sendErrorMsg 3]
    ∧ (finalState (AppState.mk true [] "go" false)
        (handleSendMessage (AppState.mk true [] "go" false) 1 2 3
          (.streamErr ["par", "tial"]))).messages
      = [] ++ [userMsg 1 "go", ⟨botMsgId 2, concatFrags ["par", "tial"], Sender.BOT⟩,
          sendErrorMsg 3] :=
  let h := c10_placeholder_only_after_initiation (AppState.mk true [] "go" false)
    1 2 3 (by decide) rfl rfl (by decide)
  ⟨h.1.1, h.2 ["par", "tial"]⟩

theorem filterMap_eq_self_of_some {α : Type} (f : α → Option α) (l : List α)
    (h : ∀ a ∈ l, f a = some a) : l.filterMap f = l := by
  induction l with
  | nil => rfl
  | cons a l ih =>
    rw [List.filterMap_cons, h a (List.mem_cons_self a l),
      ih fun a2 ha2 => h a2 (List.mem_cons_of_mem a ha2)]

theorem dropLast_cons_snoc {α : Type} (x y : α) (l : List α) :
    (x :: (l ++ [y])).dropLast = x :: l := by
  rw [← List.cons_append, List.dropLast_concat]

theorem find?_singleton_self (bid txt : String) (sd : Sender) :
    List.find? (fun m => m.id == bid) [(⟨bid, txt, sd⟩ : Message)]
      = some ⟨bid, txt, sd⟩ := by
  rw [List.find?_cons_of_pos]
  simp

theorem find?_none_of_fresh (bid : String) (ms0 : List Message)
    (hf : ∀ m ∈ ms0, m.id ≠ bid) :
    List.find? (fun m => m.id == bid) ms0 = none := by
  rw [List.find?_eq_none]
  intro m hm
  simpa using hf m hm

theorem find?_fresh_snoc (bid txt : String) (sd : Sender) (ms0 : List Message)
    (hf : ∀ m ∈ ms0, m.id ≠ bid) :
    List.find? (fun m => m.id == bid) (ms0 ++ [⟨bid, txt, sd⟩])
      = some ⟨bid, txt, sd⟩ := by
  rw [find?_append_of_none _ ms0 _ fun m hm => by simpa using hf m hm,
    find?_singleton_self]

/-- The streaming renders of a fresh placeholder form a chain of merge
steps keyed by the placeholder identifier. -/
theorem chain_merge_accTexts (bid : String) (ms0 : List Message) (sd : Sender)
    (hf : ∀ m ∈ ms0, m.id ≠ bid) :
    ∀ (cs : List String) (acc : String),
      List.Chain' (fun A B => ∃ txt, B = mergeChunk bid txt A)
        ((ms0 ++ [⟨bid, acc, sd⟩]) ::
          (accTexts acc cs).map fun txt => ms0 ++ [⟨bid, txt, sd⟩]) := by
  intro cs
  induction cs with
  | nil => intro acc; simp [accTexts]
  | cons f fs ih =>
    intro acc
    rw [accTexts, List.map_cons, List.chain'_cons]
    exact ⟨⟨acc ++ f, (mergeChunk_fresh bid (acc ++ f) acc sd ms0 hf).symm⟩,
      ih (acc ++ f)⟩

/-- The same chain, stated over the unregrouped message-list shape used
by `handleSendMessage`. -/
theorem chain_merge_accTexts2 (bid : String) (ms0 : List Message) (u : Message)
    (sd : Sender) (hf : ∀ m ∈ ms0 ++ [u], m.id ≠ bid) (cs : List String)
    (acc : String) :
    List.Chain' (fun A B => ∃ txt, B = mergeChunk bid txt A)
      ((ms0 ++ [u, ⟨bid, acc, sd⟩]) ::
        (accTexts acc cs).map fun txt => ms0 ++ [u, ⟨bid, txt, sd⟩]) := by
  have h := chain_merge_accTexts bid (ms0 ++ [u]) sd hf cs acc
  simpa [List.append_assoc] using h

/-- C1.  For every successful stream with fragment list `fs`, the target
BOT message's text runs exactly through the successive prefix
concatenations of `fs`: it reads `""` at the render that publishes the
placeholder, is updated once per fragment — in arrival order — to the
concatenation of the fragments seen so far, and at the operation's final
render (the one that clears `pending`) it equals the concatenation of all
fragments; this holds for `initializeChat` and, under the guard and with
a placeholder identifier not already present in the list, for
`handleSendMessage`. -/
theorem c1_stream_prefix_states :
    (∀ (s : AppState) (t : Nat) (fs : List String),
        botTexts ("bot-init-" ++ toString t) (initializeChat s t (.ok fs))
          = ("" :: accTexts "" fs) ++ [concatFrags fs])
    ∧ (∀ (s : AppState) (t1 t2 t3 : Nat) (fs : List String),
        trimmedEmpty s.userInput = false → s.isLoading = false → s.chat = true →
        (∀ m ∈ s.messages, m.id ≠ botMsgId t2) →
        botTexts (botMsgId t2) (handleSendMessage s t1 t2 t3 (.ok fs))
          = ("" :: accTexts "" fs) ++ [concatFrags fs]) := by
  constructor
  · intro s t fs
    have hmid : ∀ l : List String,
        List.filterMap
          ((fun st : AppState =>
              Option.map Message.text
                (List.find? (fun m => m.id == "bot-init-" ++ toString t) st.messages)) ∘
            fun txt => AppState.mk true [⟨"bot-init-" ++ toString t, txt, Sender.BOT⟩]
              s.userInput true) l = l := by
      intro l
      apply filterMap_eq_self_of_some
      intro txt _
      simp only [Function.comp_apply]
      rw [find?_singleton_self]
      rfl
    simp only [initializeChat, botTexts, List.filterMap_append, List.filterMap_cons,
      List.filterMap_nil, List.filterMap_map, initPlaceholder, find?_singleton_self,
      Option.map_some']
    rw [hmid]
  · intro s t1 t2 t3 fs h1 h2 h3 hf
    have hf2 := fresh_snoc_user s t1 t2 hf
    have hnone : List.find? (fun m => m.id == botMsgId t2)
        (s.messages ++ [userMsg t1 s.userInput]) = none :=
      find?_none_of_fresh (botMsgId t2) _ hf2
    have hfind : ∀ txt : String,
        List.find? (fun m => m.id == botMsgId t2)
          (s.messages ++ [userMsg t1 s.userInput, ⟨botMsgId t2, txt, Sender.BOT⟩])
          = some ⟨botMsgId t2, txt, Sender.BOT⟩ := by
      intro txt
      rw [show s.messages ++ [userMsg t1 s.userInput,
            (⟨botMsgId t2, txt, Sender.BOT⟩ : Message)]
          = (s.messages ++ [userMsg t1 s.userInput])
            ++ [⟨botMsgId t2, txt, Sender.BOT⟩] by simp]
      exact find?_fresh_snoc (botMsgId t2) txt Sender.BOT _ hf2
    have hmid : ∀ l : List String,
        List.filterMap
          ((fun st : AppState =>
              Option.map Message.text
                (List.find? (fun m => m.id == botMsgId t2) st.messages)) ∘
            fun txt => AppState.mk s.chat
              (s.messages ++ [userMsg t1 s.userInput, ⟨botMsgId t2, txt, Sender.BOT⟩])
              "" true) l = l := by
      intro l
      apply filterMap_eq_self_of_some
      intro txt _
      simp only [Function.comp_apply]
      rw [hfind txt]
      rfl
    rw [handleSendMessage_ok_eq s t1 t2 t3 fs h1 h2 h3 hf]
    simp only [botTexts, List.filterMap_append, List.filterMap_cons, List.filterMap_nil,
      List.filterMap_map]
    rw [hnone, hfind "", hfind (concatFrags fs), hmid]
    rfl

/-- C1 witness: the spec's example stream, for both operations. -/
theorem c1_stream_prefix_states_witness :
    botTexts ("bot-init-" ++ toString 0)
        (initializeChat initialState 0 (.ok ["Hello", " there", "!"]))
      = ["", "Hello", "Hello there", "Hello there!", "Hello there!"]
    ∧ botTexts (botMsgId 2)
        (handleSendMessage (AppState.mk true [] "go" false) 1 2 3
          (.ok ["Hello", " there", "!"]))
      = ["", "Hello", "Hello there", "Hello there!", "Hello there!"] :=
  ⟨(c1_stream_prefix_states.1 initialState 0 ["Hello", " there", "!"]).trans (by decide),
   ((c1_stream_prefix_states.2 (AppState.mk true [] "go" false) 1 2 3
      ["Hello", " there", "!"] (by decide) rfl rfl (by decide)).trans (by decide))⟩

/-- C6.  A streaming merge step touches only the messages whose
identifier equals the placeholder's: it preserves the length and the
position of every message, leaves every message with a different
identifier exactly as it was, and rewrites the text of the matching
message; and during a guard-passing user turn the successive published
message lists (from the placeholder publication up to the end of the
stream) are related exactly by such merge steps keyed by the placeholder
identifier. -/
theorem c6_merge_selects_by_id :
    (∀ (bid txt : String) (ms : List Message),
        (mergeChunk bid txt ms).length = ms.length
        ∧ (∀ (i : Nat) (m : Message), ms[i]? = some m → m.id ≠ bid →
            (mergeChunk bid txt ms)[i]? = some m)
        ∧ (∀ (i : Nat) (m : Message), ms[i]? = some m → m.id = bid →
            (mergeChunk bid txt ms)[i]? = some { m with text := txt }))
    ∧ (∀ (s : AppState) (t1 t2 t3 : Nat) (fs : List String),
        trimmedEmpty s.userInput = false → s.isLoading = false → s.chat = true →
        (∀ m ∈ s.messages, m.id ≠ botMsgId t2) →
        List.Chain' (fun A B => ∃ txt, B = mergeChunk (botMsgId t2) txt A)
          ((((handleSendMessage s t1 t2 t3 (.ok fs)).map
              AppState.messages).drop 1).dropLast)) := by
  constructor
  · intro bid txt ms
    refine ⟨by simp [mergeChunk], ?_, ?_⟩
    · intro i m hi hm
      rw [mergeChunk, List.getElem?_map, hi, Option.map_some', if_neg hm]
    · intro i m hi hm
      rw [mergeChunk, List.getElem?_map, hi, Option.map_some', if_pos hm]
  · intro s t1 t2 t3 fs h1 h2 h3 hf
    have hf2 := fresh_snoc_user s t1 t2 hf
    rw [handleSendMessage_ok_eq s t1 t2 t3 fs h1 h2 h3 hf]
    simp only [List.map_cons, List.map_append, List.map_map, List.map_nil,
      Function.comp_def, List.drop_one]
    rw [List.cons_append, List.cons_append, List.tail_cons, dropLast_cons_snoc]
    exact chain_merge_accTexts2 (botMsgId t2) s.messages (userMsg t1 s.userInput)
      Sender.BOT hf2 fs ""

/-- C6 witness: a concrete merge step leaves the differently-identified
message in place, and a concrete turn's published lists chain by merge
steps. -/
theorem c6_merge_selects_by_id_witness :
    ([(⟨"user-1", "go", Sender.USER⟩ : Message), ⟨"bot-2", "", Sender.BOT⟩][0]?
        = some ⟨"user-1", "go", Sender.USER⟩
      ∧ ("user-1" : String) ≠ "bot-2"
      ∧ (mergeChunk "bot-2" "hi"
          [⟨"user-1", "go", Sender.USER⟩, ⟨"bot-2", "", Sender.BOT⟩])[0]?
        = some ⟨"user-1", "go", Sender.USER⟩)
    ∧ List.Chain' (fun A B => ∃ txt, B = mergeChunk (botMsgId 2) txt A)
        ((((handleSendMessage (AppState.mk true [] "go" false) 1 2 3
            (.ok ["Hel", "lo"])).map AppState.messages).drop 1).dropLast) :=
  ⟨⟨rfl, by decide,
    (c6_merge_selects_by_id.1 "bot-2" "hi"
      [⟨"user-1", "go", Sender.USER⟩, ⟨"bot-2", "", Sender.BOT⟩]).2.1 0
      ⟨"user-1", "go", Sender.USER⟩ rfl (by decide)⟩,
   c6_merge_selects_by_id.2 (AppState.mk true [] "go" false) 1 2 3 ["Hel", "lo"]
     (by decide) rfl rfl (by decide)⟩

/-- C9 counterexample.  Message identifiers embed `Date.now()`
(millisecond resolution) after a fixed literal head, and nothing else
guarantees their uniqueness: in a conversation whose two user turns
observe the same millisecond (here 5), the two USER messages are both
assigned the identifier `user-5`, so the identifiers of the messages
ever created are not pairwise distinct. -/
theorem c9_duplicate_ids_counterexample :
    ¬ ((runEvents initialState
        [.init 0 (.ok ["Welcome!"]),
         .send "a" 5 5 0 (.ok ["x"]),
         .send "b" 5 6 0 (.ok ["y"])]).messages.map Message.id).Nodup := by
  decide

/-- C9 amended.  Identifiers are assigned once at creation, and they are
pairwise distinct provided the timestamp-derived identifiers of a turn
are fresh (not already present in the list) — which the code itself does
not guarantee, since `Date.now()` can repeat within a millisecond.
Within one operation the created identifiers differ by their literal
heads (`user-`, `bot-`, `error-`), every `initializeChat` outcome ends
with a single-message list, and a guard-passing `handleSendMessage`
keeps the identifier list duplicate-free whenever the incoming list was
duplicate-free and the three fresh identifiers are new. -/
theorem c9_ids_distinct_if_fresh :
    (∀ (s : AppState) (t : Nat) (o : InitOutcome),
        ((finalState s (initializeChat s t o)).messages.map Message.id).Nodup)
    ∧ (∀ (s : AppState) (t1 t2 t3 : Nat) (o : SendOutcome),
        (s.messages.map Message.id).Nodup →
        "user-" ++ toString t1 ∉ s.messages.map Message.id →
        "bot-" ++ toString t2 ∉ s.messages.map Message.id →
        "error-" ++ toString t3 ∉ s.messages.map Message.id →
        ((finalState s (handleSendMessage s t1 t2 t3 o)).messages.map
          Message.id).Nodup) := by
  constructor
  · intro s t o
    cases o with
    | createFail => rw [(initializeChat_final_messages_fail s t).1]; simp
    | sendFail => rw [(initializeChat_final_messages_fail s t).2.1]; simp
    | streamErr cs => rw [(initializeChat_final_messages_fail s t).2.2 cs]; simp
    | ok fs => rw [initializeChat_final_messages_ok s t fs]; simp
  · intro s t1 t2 t3 o hnd h1 h2 h3
    cases g1 : trimmedEmpty s.userInput with
    | true =>
      rw [handleSendMessage_noop s t1 t2 t3 o (Or.inl g1)]
      exact hnd
    | false =>
    cases g2 : s.isLoading with
    | true =>
      rw [handleSendMessage_noop s t1 t2 t3 o (Or.inr (Or.inl g2))]
      exact hnd
    | false =>
    cases g3 : s.chat with
    | false =>
      rw [handleSendMessage_noop s t1 t2 t3 o (Or.inr (Or.inr g3))]
      exact hnd
    | true =>
    have hf : ∀ m ∈ s.messages, m.id ≠ botMsgId t2 := by
      intro m hm hcon
      apply h2
      rw [show ("bot-" ++ toString t2 : String) = botMsgId t2 from rfl, ← hcon]
      exact List.mem_map_of_mem Message.id hm
    cases o with
    | sendFail =>
      rw [handleSendMessage_final_sendFail s t1 t2 t3 g1 g2 g3]
      simp only [List.map_append, List.map_cons, List.map_nil]
      rw [List.nodup_append]
      refine ⟨hnd, ?_, ?_⟩
      · simp only [userMsg, sendErrorMsg, List.nodup_cons, List.mem_singleton,
          List.not_mem_nil, not_false_eq_true, List.nodup_nil, and_true]
        exact user_id_ne_error_id (toString t1) (toString t3)
      · intro a ha hb
        simp only [userMsg, sendErrorMsg, List.mem_cons, List.mem_singleton,
          List.not_mem_nil, or_false] at hb
        rcases hb with hb | hb
        · rw [hb] at ha
          exact h1 ha
        · rw [hb] at ha
          exact h3 ha
    | ok fs =>
      rw [handleSendMessage_final_ok s t1 t2 t3 fs g1 g2 g3 hf]
      simp only [List.map_append, List.map_cons, List.map_nil]
      rw [List.nodup_append]
      refine ⟨hnd, ?_, ?_⟩
      · simp only [userMsg, botMsgId, List.nodup_cons, List.mem_singleton,
          List.not_mem_nil, not_false_eq_true, List.nodup_nil, and_true]
        exact user_id_ne_bot_id (toString t1) (toString t2)
      · intro a ha hb
        simp only [userMsg, botMsgId, List.mem_cons, List.mem_singleton,
          List.not_mem_nil, or_false] at hb
        rcases hb with hb | hb
        · rw [hb] at ha
          exact h1 ha
        · rw [hb] at ha
          exact h2 ha
    | streamErr cs =>
      rw [handleSendMessage_final_streamErr s t1 t2 t3 cs g1 g2 g3 hf]
      simp only [List.map_append, List.map_cons, List.map_nil]
      rw [List.nodup_append]
      refine ⟨hnd, ?_, ?_⟩
      · simp only [userMsg, botMsgId, sendErrorMsg, List.nodup_cons, List.mem_cons,
          List.mem_singleton, List.not_mem_nil, not_false_eq_true, List.nodup_nil,
          and_true, not_or]
        exact ⟨⟨user_id_ne_bot_id (toString t1) (toString t2),
          user_id_ne_error_id (toString t1) (toString t3)⟩,
          bot_id_ne_error_id (toString t2) (toString t3)⟩
      · intro a ha hb
        simp only [userMsg, botMsgId, sendErrorMsg, List.mem_cons, List.mem_singleton,
          List.not_mem_nil, or_false] at hb
        rcases hb with hb | hb | hb
        · rw [hb] at ha
          exact h1 ha
        · rw [hb] at ha
          exact h2 ha
        · rw [hb] at ha
          exact h3 ha

/-- C9 amended witness: a bootstrap and a user turn with fresh
timestamp-derived identifiers keep all identifiers pairwise distinct. -/
theorem c9_ids_distinct_if_fresh_witness :
    ((finalState initialState
        (initializeChat initialState 0 (.ok ["hi"]))).messages.map Message.id).Nodup
    ∧ ((finalState (AppState.mk true [⟨"bot-init-0", "hello", Sender.BOT⟩] "go" false)
        (handleSendMessage
          (AppState.mk true [⟨"bot-init-0", "hello", Sender.BOT⟩] "go" false)
          1 2 3 (.ok ["x"]))).messages.map Message.id).Nodup :=
  ⟨c9_ids_distinct_if_fresh.1 initialState 0 (.ok ["hi"]),
   c9_ids_distinct_if_fresh.2
     (AppState.mk true [⟨"bot-init-0", "hello", Sender.BOT⟩] "go" false)
     1 2 3 (.ok ["x"]) (by decide) (by decide) (by decide) (by decide)⟩

end CareerCompass
